import Mathlib

/-!
Verification of the geometry kernel in `src/_geometry_accel.cpp`.

The kernel is embedded shallowly over the exact rationals `ℚ`: every IEEE-754
double of the source is modelled as a rational number, and double arithmetic
as exact rational arithmetic.  The two transcendental library calls of the
source (`std::hypot`/`std::sqrt` and `std::cos`/`std::sin`) are handled as
follows:

* `std::sqrt`/`std::hypot` are modelled by `ratSqrt`/`hypotQ`, a rational
  square-root approximation based on an integer bisection square root
  (`isqrt`), accurate to about `2 ^ (-40)` relative error.  This mirrors the
  role the calls play in the source: producing a finite-precision
  approximation of the exact square root.  No theorem below depends on the
  precision beyond coarse interval bounds.
* `generate_line_fill` computes `line_dir = (cos(angle·π/180), sin(angle·π/180))`
  once at entry.  The embedding takes these two direction components as
  explicit arguments (`dirx`, `diry`); for `angle = 0` — the only angle any
  claim mentions — the source computes exactly `(1, 0)`.

Python buffer objects are modelled by `PyBuffer` (shape/element-kind
metadata plus a flat rational payload) and Python `TypeError`/`ValueError`
by the `GeomError` sum type, with the exact message strings of the source.
-/

attribute [local semireducible] Rat.mul Rat.add Rat.sub Rat.inv Rat.ofScientific

/-- A planar point: the `(x, y)` coordinate pair of the source. -/
abbrev Pt : Type := ℚ × ℚ

def ptZero : Pt := (0, 0)

/-- The `IntersectionPoint` record of the source: the parameter `t` along the
query segment together with the intersection coordinates. -/
structure IPoint where
  t : ℚ
  x : ℚ
  y : ℚ
deriving DecidableEq

def ipZero : IPoint := ⟨0, 0, 0⟩

/-- The `1e-9` tolerance used both for closing-vertex detection in
`effective_polygon_length` and for near-duplicate collapsing of intersection
records. -/
def closeEps : ℚ := 1 / 10 ^ 9

/-- The default `eps` of `clip_lines_to_polygon`, also the fixed `eps` used
inside `generate_line_fill`. -/
def defaultEps : ℚ := 1 / 10 ^ 10

/-- The `1e-300` guard added to the denominator in the ray-cast test. -/
def pipGuard : ℚ := 1 / 10 ^ 300

/-- The `1e-6` lower clamp applied to `spacing` when counting fill lines. -/
def smallSpacing : ℚ := 1 / 10 ^ 6

/-- Bisection integer square root (exact floor of the square root, given
enough fuel; the fuel argument only bounds the number of bisection steps and
is always sufficient at `nv + 2`).  Used to model the double-precision
`std::sqrt`/`std::hypot` of the source by a computable approximation. -/
def isqrtAux (nv : ℕ) : ℕ → ℕ → ℕ → ℕ
  | lo, _, 0 => lo
  | lo, hi, fuel + 1 =>
    if hi ≤ lo + 1 then lo
    else
      let mid := (lo + hi) / 2
      if mid * mid ≤ nv then isqrtAux nv mid hi fuel else isqrtAux nv lo mid fuel

def isqrt (nv : ℕ) : ℕ := isqrtAux nv 0 (nv + 1) (nv + 2)

/-- Rational square-root approximation modelling `std::sqrt` on doubles:
`ratSqrt q` is `⌊√(q) · 2^40⌋`-accurate, and exact on perfect squares. -/
def ratSqrt (q : ℚ) : ℚ :=
  if q ≤ 0 then 0
  else ((isqrt (q.num.toNat * q.den * 2 ^ 80) : ℚ)) / ((q.den : ℚ) * 2 ^ 40)

/-- Model of `std::hypot dx dy` = `sqrt (dx² + dy²)`. -/
def hypotQ (dx dy : ℚ) : ℚ := ratSqrt (dx * dx + dy * dy)

/-- `effective_polygon_length` of the source: the row count, minus one when
the last vertex is within `1e-9` of the first in both coordinates. -/
def effective_polygon_length (poly : List Pt) : ℕ :=
  if 1 < poly.length then
    if |(poly.headD ptZero).1 - (poly.getLastD ptZero).1| < closeEps ∧
        |(poly.headD ptZero).2 - (poly.getLastD ptZero).2| < closeEps then
      poly.length - 1
    else poly.length
  else poly.length

/-- One iteration of the ray-cast loop body of `point_in_polygon`: does the
horizontal ray at height `y` starting at `x` cross edge `(vi, vj)`? -/
def edgeCrossTest (x y : ℚ) (vi vj : Pt) : Bool :=
  (decide (vi.2 > y) != decide (vj.2 > y)) &&
    decide (x < (vj.1 - vi.1) * (y - vi.2) / (vj.2 - vi.2 + pipGuard) + vi.1)

/-- `point_in_polygon` of the source: even-odd ray casting over the first `n`
vertices, edge `i` joining vertex `i` to vertex `i - 1` (cyclically). -/
def point_in_polygon (x y : ℚ) (poly : List Pt) (n : ℕ) : Bool :=
  if n < 3 then false
  else
    (List.range n).foldl
      (fun inside i =>
        if edgeCrossTest x y (poly.getD i ptZero) (poly.getD ((i + n - 1) % n) ptZero) then
          !inside
        else inside)
      false

/-- The denominator `(x1-x2)(y3-y4) - (y1-y2)(x3-x4)` of the 2×2 system
solved by `compute_line_segment_intersection`. -/
def lsiDenom (p1 p2 p3 p4 : Pt) : ℚ :=
  (p1.1 - p2.1) * (p3.2 - p4.2) - (p1.2 - p2.2) * (p3.1 - p4.1)

/-- Parameter `t` along `p1 → p2`, by Cramer's rule, as in the source. -/
def lsiT (p1 p2 p3 p4 : Pt) : ℚ :=
  ((p1.1 - p3.1) * (p3.2 - p4.2) - (p1.2 - p3.2) * (p3.1 - p4.1)) / lsiDenom p1 p2 p3 p4

/-- Parameter `u` along `p3 → p4`, by Cramer's rule, as in the source. -/
def lsiU (p1 p2 p3 p4 : Pt) : ℚ :=
  -((p1.1 - p2.1) * (p1.2 - p3.2) - (p1.2 - p2.2) * (p1.1 - p3.1)) / lsiDenom p1 p2 p3 p4

/-- `compute_line_segment_intersection` of the source. -/
def compute_line_segment_intersection (p1 p2 p3 p4 : Pt) (eps : ℚ) : Option IPoint :=
  if |lsiDenom p1 p2 p3 p4| < eps then none
  else
    let t := lsiT p1 p2 p3 p4
    let u := lsiU p1 p2 p3 p4
    if t < -eps ∨ 1 + eps < t ∨ u < -eps ∨ 1 + eps < u then none
    else some ⟨t, p1.1 + t * (p2.1 - p1.1), p1.2 + t * (p2.2 - p1.2)⟩

/-- The per-line edge scan of the clipper: intersect the query segment
`(s, e)` against every edge `j → (j+1) % n` of the effective polygon,
collecting accepted records in edge order. -/
def collectRecords (poly : List Pt) (n : ℕ) (s e : Pt) (eps : ℚ) : List IPoint :=
  (List.range n).filterMap (fun j =>
    compute_line_segment_intersection s e (poly.getD j ptZero)
      (poly.getD ((j + 1) % n) ptZero) eps)

/-- The comparison `a.t ≤ b.t` used to sort intersection records.  The source
uses `std::sort` with the strict comparator `a.t < b.t`; records with equal
`t` on the same query line are identical (their coordinates are computed from
`t` alone), so any sort nondecreasing in `t` produces the same list and the
stable structural `insertionSort` models `std::sort` exactly here. -/
def recLE (a b : IPoint) : Prop := a.t ≤ b.t

instance : DecidableRel recLE := fun a b => inferInstanceAs (Decidable (a.t ≤ b.t))

instance : IsTotal IPoint recLE := ⟨fun a b => le_total a.t b.t⟩

instance : IsTrans IPoint recLE := ⟨fun _ _ _ h1 h2 => le_trans h1 h2⟩

def sortRecords (l : List IPoint) : List IPoint := l.insertionSort recLE

/-- The in-place near-duplicate collapse of the source, scanning the sorted
records and dropping any record whose `t` is within `1e-9` of the `t` of the
previously kept record (`last` holds that `t`). -/
def dedupLoop (last : ℚ) : List IPoint → List IPoint
  | [] => []
  | r :: rs => if |r.t - last| < closeEps then dedupLoop last rs else r :: dedupLoop r.t rs

def dedupRecords : List IPoint → List IPoint
  | [] => []
  | r :: rs => r :: dedupLoop r.t rs

/-- Consecutive pairing `(0,1), (2,3), …` of the deduplicated records; an odd
leftover record is dropped. -/
def pairUp : List IPoint → List (IPoint × IPoint)
  | a :: b :: rest => (a, b) :: pairUp rest
  | _ => []

/-- Midpoint classification and emission: a pair becomes an output segment
exactly when its midpoint passes the even-odd containment test. -/
def emitPairs (poly : List Pt) (n : ℕ) (l : List IPoint) : List (Pt × Pt) :=
  (pairUp l).filterMap (fun ab =>
    if point_in_polygon ((1 / 2) * (ab.1.x + ab.2.x)) ((1 / 2) * (ab.1.y + ab.2.y)) poly n then
      some ((ab.1.x, ab.1.y), (ab.2.x, ab.2.y))
    else none)

/-- Processing of a single query line by `clip_lines_to_polygon` (and, with
identical inlined code, by `generate_line_fill`): collect, bail out below two
records, sort, collapse near-duplicates, pair and emit. -/
def clipLineCore (poly : List Pt) (n : ℕ) (s e : Pt) (eps : ℚ) : List (Pt × Pt) :=
  let recs := collectRecords poly n s e eps
  if recs.length < 2 then []
  else emitPairs poly n (dedupRecords (sortRecords recs))

/-- The core of `clip_lines_to_polygon`, after buffer marshaling: degenerate
polygons and empty line sets give an empty result, otherwise each query line
is processed independently and the outputs concatenated in input order. -/
def clipLinesCore (poly : List Pt) (lines : List (Pt × Pt)) (eps : ℚ) : List (Pt × Pt) :=
  let n := effective_polygon_length poly
  if n < 3 ∨ lines.length = 0 then []
  else lines.flatMap (fun se => clipLineCore poly n se.1 se.2 eps)

/-- Start point of fill line `k`:
`centroid - overshoot·bbox_diag·dir + k·spacing·perp` with `perp = (-diry, dirx)`. -/
def fillLineStart (cx cy dirx diry bboxDiag overshoot spacing : ℚ) (k : ℤ) : Pt :=
  ((cx - dirx * (bboxDiag * overshoot)) + ((k : ℚ) * spacing) * (-diry),
   (cy - diry * (bboxDiag * overshoot)) + ((k : ℚ) * spacing) * dirx)

/-- End point of fill line `k`:
`centroid + overshoot·bbox_diag·dir + k·spacing·perp`. -/
def fillLineEnd (cx cy dirx diry bboxDiag overshoot spacing : ℚ) (k : ℤ) : Pt :=
  ((cx + dirx * (bboxDiag * overshoot)) + ((k : ℚ) * spacing) * (-diry),
   (cy + diry * (bboxDiag * overshoot)) + ((k : ℚ) * spacing) * dirx)

/-- Offset indices `-num_lines, …, num_lines` of the fill loop. -/
def fillOffsets (numLines : ℤ) : List ℤ :=
  (List.range (2 * numLines.toNat + 1)).map (fun i => (i : ℤ) - numLines)

/-- The fill loop of `generate_line_fill` after all defaults are resolved:
`num_lines = ⌊bbox_diag / max(spacing, 1e-6)⌋ + 3` lines on each side of the
centroid, each clipped with the same per-line pipeline as the clipper, at the
fixed `eps = 1e-10` of the source. -/
def generateLineFillCore (poly : List Pt) (n : ℕ)
    (spacing dirx diry cx cy bboxDiag overshoot : ℚ) : List (Pt × Pt) :=
  let safeSpacing := if spacing < smallSpacing then smallSpacing else spacing
  let numLines : ℤ := ⌊bboxDiag / safeSpacing⌋ + 3
  (fillOffsets numLines).flatMap (fun k =>
    clipLineCore poly n (fillLineStart cx cy dirx diry bboxDiag overshoot spacing k)
      (fillLineEnd cx cy dirx diry bboxDiag overshoot spacing k) defaultEps)

/-- Arithmetic mean of the first `n` polygon vertices (default centroid). -/
def centroidOf (poly : List Pt) (n : ℕ) : Pt :=
  (((List.range n).foldl (fun acc i => acc + (poly.getD i ptZero).1) 0) / (n : ℚ),
   ((List.range n).foldl (fun acc i => acc + (poly.getD i ptZero).2) 0) / (n : ℚ))

/-- Bounding-box diagonal of the first `n` polygon vertices (default
`bbox_diag`), scanning from vertex `0` as the source does. -/
def bboxDiagOf (poly : List Pt) (n : ℕ) : ℚ :=
  let p0 := poly.getD 0 ptZero
  let minX := ((List.range n).drop 1).foldl (fun acc i => min acc (poly.getD i ptZero).1) p0.1
  let maxX := ((List.range n).drop 1).foldl (fun acc i => max acc (poly.getD i ptZero).1) p0.1
  let minY := ((List.range n).drop 1).foldl (fun acc i => min acc (poly.getD i ptZero).2) p0.2
  let maxY := ((List.range n).drop 1).foldl (fun acc i => max acc (poly.getD i ptZero).2) p0.2
  hypotQ (maxX - minX) (maxY - minY)

/-- Python `TypeError` / `ValueError` carrying the formatted message, as
raised through `PyErr_Format` / `PyErr_SetString` in the source. -/
inductive GeomError where
  | typeError (msg : String)
  | valueError (msg : String)
deriving DecidableEq

def GeomError.msg : GeomError → String
  | .typeError m => m
  | .valueError m => m

/-- A borrowed Python buffer: dimensionality, shape, element format code and
the flat payload, as inspected by `ensure_double_2d`. -/
structure PyBuffer where
  ndim : ℕ
  shape : List ℕ
  fmt : String
  data : List ℚ
deriving DecidableEq

def namePolygon : String := "polygon"

def nameLineStarts : String := "line_starts"

def nameLineEnds : String := "line_ends"

def nameCentroid : String := "centroid"

def sfx2D : String := " must be a 2D array"

def sfxShape : String := " must have shape (N, 2)"

def sfxDtype : String := " must have dtype float64"

def sfxSeq : String := " must be a sequence"

def sfxLen2 : String := " must have length 2"

def msgSameLen : String := "line_starts and line_ends must have the same length"

def msgSpacingPos : String := "spacing must be positive"

def fmtDouble : String := "d"

/-- `ensure_double_2d` of the source: a buffer must be 2-dimensional, with
second dimension exactly 2, and hold double-precision elements. -/
def ensure_double_2d (b : PyBuffer) (name : String) : Except GeomError Unit :=
  if b.ndim ≠ 2 then .error (.valueError (name ++ sfx2D))
  else if b.shape.getD 1 0 ≠ 2 then .error (.valueError (name ++ sfxShape))
  else if b.fmt ≠ fmtDouble then .error (.typeError (name ++ sfxDtype))
  else .ok ()

def bufferRows (b : PyBuffer) : ℕ := b.shape.getD 0 0

/-- Read the buffer payload as `shape[0]` coordinate pairs. -/
def bufferPoints (b : PyBuffer) : List Pt :=
  (List.range (bufferRows b)).map (fun i => (b.data.getD (2 * i) 0, b.data.getD (2 * i + 1) 0))

/-- A Python object passed as a point-like argument: `None`, a sequence of
numbers, or something that is not a sequence at all. -/
inductive PyPointArg where
  | none
  | seq (xs : List ℚ)
  | notSeq
deriving DecidableEq

/-- `parse_point_like` of the source: reject non-sequences with a
`TypeError` and sequences of length other than 2 with a `ValueError`.
(The source never calls it on `None`; `None` is not a Python sequence, so it
is grouped with `notSeq`.) -/
def parse_point_like (obj : PyPointArg) (name : String) : Except GeomError Pt :=
  match obj with
  | .seq xs =>
    if xs.length ≠ 2 then .error (.valueError (name ++ sfxLen2))
    else .ok (xs.getD 0 0, xs.getD 1 0)
  | _ => .error (.typeError (name ++ sfxSeq))

/-- The full `clip_lines_to_polygon` entry point: marshal and validate the
three buffers in order, check the length agreement, then run the core. -/
def clip_lines_to_polygon (pb sb eb : PyBuffer) (eps : ℚ) :
    Except GeomError (List (Pt × Pt)) :=
  match ensure_double_2d pb namePolygon with
  | .error e => .error e
  | .ok _ =>
    match ensure_double_2d sb nameLineStarts with
    | .error e => .error e
    | .ok _ =>
      match ensure_double_2d eb nameLineEnds with
      | .error e => .error e
      | .ok _ =>
        if bufferRows sb ≠ bufferRows eb then .error (.valueError msgSameLen)
        else .ok (clipLinesCore (bufferPoints pb) ((bufferPoints sb).zip (bufferPoints eb)) eps)

/-- The full `generate_line_fill` entry point: positivity of `spacing` is
checked first, a non-positive `overshoot` is reset to 2, the polygon buffer
is validated, degenerate polygons return empty before the centroid argument
is even parsed, then the defaults for centroid and `bbox_diag` are resolved
and the fill loop runs.  `dirx`/`diry` stand for the direction components
`(cos, sin)` computed by the source from `angle`. -/
def generate_line_fill (pb : PyBuffer) (spacing dirx diry : ℚ) (centroidArg : PyPointArg)
    (bboxArg : Option ℚ) (overshoot : ℚ) : Except GeomError (List (Pt × Pt)) :=
  if spacing ≤ 0 then .error (.valueError msgSpacingPos)
  else
    let overshoot2 := if overshoot ≤ 0 then 2 else overshoot
    match ensure_double_2d pb namePolygon with
    | .error e => .error e
    | .ok _ =>
      let poly := bufferPoints pb
      let n := effective_polygon_length poly
      if n < 3 then .ok []
      else
        match (match centroidArg with
               | .none => .ok (centroidOf poly n)
               | c => parse_point_like c nameCentroid : Except GeomError Pt) with
        | .error e => .error e
        | .ok c =>
          let bbox0 : ℚ := match bboxArg with
            | some v => v
            | Option.none => 0
          let bboxDiag := if bbox0 ≤ 0 then bboxDiagOf poly n else bbox0
          if bboxDiag ≤ 0 then .ok []
          else .ok (generateLineFillCore poly n spacing dirx diry c.1 c.2 bboxDiag overshoot2)

/-- Distance between the circle centers, as computed by
`circle_circle_intersections` via `std::hypot`. -/
def cciD (cx1 cy1 cx2 cy2 : ℚ) : ℚ := hypotQ (cx2 - cx1) (cy2 - cy1)

/-- `a = (r1² - r2² + d²) / (2d)`: distance from the first center to the
radical line along the center-to-center axis. -/
def cciA (cx1 cy1 r1 cx2 cy2 r2 : ℚ) : ℚ :=
  (r1 * r1 - r2 * r2 + cciD cx1 cy1 cx2 cy2 * cciD cx1 cy1 cx2 cy2) /
    (2 * cciD cx1 cy1 cx2 cy2)

/-- `h² = r1² - a²`: squared half-chord length. -/
def cciHsq (cx1 cy1 r1 cx2 cy2 r2 : ℚ) : ℚ :=
  r1 * r1 - cciA cx1 cy1 r1 cx2 cy2 r2 * cciA cx1 cy1 r1 cx2 cy2 r2

/-- The half-chord length `h`: zero unless `h² > 0`, else `√(h²)`, exactly as
the source guards the `std::sqrt` call. -/
def cciH (cx1 cy1 r1 cx2 cy2 r2 : ℚ) : ℚ :=
  if 0 < cciHsq cx1 cy1 r1 cx2 cy2 r2 then ratSqrt (cciHsq cx1 cy1 r1 cx2 cy2 r2) else 0

/-- Helper definitions used by the theorem statements below. -/
def okList (r : Except GeomError (List (Pt × Pt))) : List (Pt × Pt) :=
  match r with
  | .ok l => l
  | .error _ => []

/-- The point at parameter `t` along the segment from `s` to `e`, exactly as
the source computes intersection coordinates from `t`. -/
def ptAlong (s e : Pt) (t : ℚ) : Pt := (s.1 + t * (e.1 - s.1), s.2 + t * (e.2 - s.2))

/-- Index formulation of pipeline steps 5 and 6 as the spec words them: pair
the deduplicated records as `(0,1), (2,3), …` (the odd leftover disappears in
the floor division `length / 2`), and emit a pair exactly when its midpoint
passes the even-odd containment test.  Compared below with the recursive
pairing the embedding of the source uses. -/
def specEmit (poly : List Pt) (n : ℕ) (l : List IPoint) : List (Pt × Pt) :=
  (List.range (l.length / 2)).filterMap (fun m =>
    let a := l.getD (2 * m) ipZero
    let b := l.getD (2 * m + 1) ipZero
    if point_in_polygon ((1 / 2) * (a.x + b.x)) ((1 / 2) * (a.y + b.y)) poly n then
      some ((a.x, a.y), (b.x, b.y))
    else none)

deriving instance DecidableEq for Except

/-- The unit square of the spec's examples, as a vertex list. -/
def unitSquare : List Pt := [(0, 0), (1, 0), (1, 1), (0, 1)]

/-- The unit square as a polygon buffer of shape `(4, 2)`. -/
def unitSquareBuffer : PyBuffer := ⟨2, [4, 2], fmtDouble, [0, 0, 1, 0, 1, 1, 0, 1]⟩

/-- A valid `(1, 2)` buffer holding a single point: a degenerate polygon. -/
def onePointBuffer : PyBuffer := ⟨2, [1, 2], fmtDouble, [0, 0]⟩

/-- A valid `(2, 2)` buffer holding two points. -/
def twoPointBuffer : PyBuffer := ⟨2, [2, 2], fmtDouble, [0, 0, 5, 5]⟩

/-- A buffer with three dimensions: rejected by `ensure_double_2d`. -/
def badNdimBuffer : PyBuffer := ⟨3, [4, 2, 1], fmtDouble, [0, 0, 1, 0, 1, 1, 0, 1]⟩

/-- A sliver triangle whose bottom edge has slope `1e-12`: the source of the
idempotence counterexample for re-clipping. -/
def sliverTriangle : List Pt := [(0, 0), (1, 1 / 10 ^ 12), (0, 1)]

/-- The height of the horizontal query line through the sliver triangle. -/
def sliverY : ℚ := 1 / (2 * 10 ^ 12)

/-- `circle_circle_intersections` of the source.  Output points are returned
as coordinate pairs (the source packs each into one complex value). -/
def circle_circle_intersections (cx1 cy1 r1 cx2 cy2 r2 tol : ℚ) : List Pt :=
  let d := cciD cx1 cy1 cx2 cy2
  if d > r1 + r2 + tol ∨ d < |r1 - r2| - tol ∨ d < tol then []
  else if cciHsq cx1 cy1 r1 cx2 cy2 r2 < -tol then []
  else
    let a := cciA cx1 cy1 r1 cx2 cy2 r2
    let h := cciH cx1 cy1 r1 cx2 cy2 r2
    let dx := cx2 - cx1
    let dy := cy2 - cy1
    let mx := cx1 + a * dx / d
    let my := cy1 + a * dy / d
    let rx := -dy / d
    let ry := dx / d
    if h > tol then [(mx + h * rx, my + h * ry), (mx - h * rx, my - h * ry)]
    else [(mx + h * rx, my + h * ry)]

/-! ## Helper lemmas about the per-line pipeline -/

lemma compute_lsi_some {p1 p2 p3 p4 : Pt} {eps : ℚ} {r : IPoint}
    (h : compute_line_segment_intersection p1 p2 p3 p4 eps = some r) :
    r.x = p1.1 + r.t * (p2.1 - p1.1) ∧ r.y = p1.2 + r.t * (p2.2 - p1.2) := by
  unfold compute_line_segment_intersection at h
  by_cases h1 : |lsiDenom p1 p2 p3 p4| < eps
  · simp [h1] at h
  · rw [if_neg h1] at h
    by_cases h2 : lsiT p1 p2 p3 p4 < -eps ∨ 1 + eps < lsiT p1 p2 p3 p4 ∨
        lsiU p1 p2 p3 p4 < -eps ∨ 1 + eps < lsiU p1 p2 p3 p4
    · simp [h2] at h
    · simp only [if_neg h2, Option.some.injEq] at h
      subst h
      exact ⟨rfl, rfl⟩

lemma collect_mem {poly : List Pt} {n : ℕ} {s e : Pt} {eps : ℚ} {r : IPoint}
    (h : r ∈ collectRecords poly n s e eps) :
    r.x = s.1 + r.t * (e.1 - s.1) ∧ r.y = s.2 + r.t * (e.2 - s.2) := by
  unfold collectRecords at h
  rw [List.mem_filterMap] at h
  obtain ⟨j, _, hj⟩ := h
  exact compute_lsi_some hj

lemma sortRecords_sorted (l : List IPoint) : (sortRecords l).Pairwise recLE :=
  List.sorted_insertionSort recLE l

lemma sortRecords_perm (l : List IPoint) : (sortRecords l).Perm l :=
  List.perm_insertionSort recLE l

lemma dedupLoop_sublist : ∀ (l : List IPoint) (last : ℚ), (dedupLoop last l).Sublist l := by
  intro l
  induction l with
  | nil => intro last; simp [dedupLoop]
  | cons r rs ih =>
    intro last
    unfold dedupLoop
    by_cases h : |r.t - last| < closeEps
    · rw [if_pos h]
      exact (ih last).cons r
    · rw [if_neg h]
      exact (ih r.t).cons₂ r

lemma dedupRecords_sublist (l : List IPoint) : (dedupRecords l).Sublist l := by
  cases l with
  | nil => simp [dedupRecords]
  | cons r rs => exact (dedupLoop_sublist rs r.t).cons₂ r

lemma dedupLoop_head_gap : ∀ (l : List IPoint) (last : ℚ), l.Pairwise recLE →
    (∀ x ∈ l, last ≤ x.t) →
    ∀ y ∈ (dedupLoop last l).head?, closeEps ≤ y.t - last := by
  intro l
  induction l with
  | nil => intro last _ _ y hy; simp [dedupLoop] at hy
  | cons r rs ih =>
    intro last hp hlb y hy
    unfold dedupLoop at hy
    by_cases h : |r.t - last| < closeEps
    · rw [if_pos h] at hy
      exact ih last (List.pairwise_cons.1 hp).2
        (fun z hz => hlb z (List.mem_cons_of_mem _ hz)) y hy
    · rw [if_neg h] at hy
      simp only [List.head?_cons, Option.mem_def, Option.some.injEq] at hy
      have hle : last ≤ r.t := hlb r (List.mem_cons_self _ _)
      have habs : |r.t - last| = r.t - last := abs_of_nonneg (by linarith)
      rw [habs] at h
      rw [← hy]
      linarith [not_lt.1 h]

lemma dedupLoop_chain : ∀ (l : List IPoint) (last : ℚ), l.Pairwise recLE →
    (∀ x ∈ l, last ≤ x.t) →
    List.Chain' (fun a b => closeEps ≤ b.t - a.t) (dedupLoop last l) := by
  intro l
  induction l with
  | nil => intro last _ _; simp [dedupLoop]
  | cons r rs ih =>
    intro last hp hlb
    unfold dedupLoop
    by_cases h : |r.t - last| < closeEps
    · rw [if_pos h]
      exact ih last (List.pairwise_cons.1 hp).2
        (fun y hy => hlb y (List.mem_cons_of_mem _ hy))
    · rw [if_neg h]
      have hrs : ∀ x ∈ rs, r.t ≤ x.t := (List.pairwise_cons.1 hp).1
      rw [List.chain'_cons']
      exact ⟨dedupLoop_head_gap rs r.t (List.pairwise_cons.1 hp).2 hrs,
        ih r.t (List.pairwise_cons.1 hp).2 hrs⟩

lemma dedupRecords_chain (l : List IPoint) (hp : l.Pairwise recLE) :
    List.Chain' (fun a b => closeEps ≤ b.t - a.t) (dedupRecords l) := by
  cases l with
  | nil => simp [dedupRecords]
  | cons r rs =>
    unfold dedupRecords
    have hrs : ∀ x ∈ rs, r.t ≤ x.t := (List.pairwise_cons.1 hp).1
    rw [List.chain'_cons']
    exact ⟨dedupLoop_head_gap rs r.t (List.pairwise_cons.1 hp).2 hrs,
      dedupLoop_chain rs r.t (List.pairwise_cons.1 hp).2 hrs⟩

lemma pairUp_rel {R : IPoint → IPoint → Prop} :
    ∀ l : List IPoint, List.Chain' R l → ∀ ab ∈ pairUp l, R ab.1 ab.2
  | [], _, ab, h => by simp [pairUp] at h
  | [a], _, ab, h => by simp [pairUp] at h
  | a :: b :: rest, hc, ab, h => by
    have hrw : pairUp (a :: b :: rest) = (a, b) :: pairUp rest := rfl
    rw [hrw] at h
    rcases List.mem_cons.1 h with h | h
    · subst h
      exact (List.chain'_cons.1 hc).1
    · exact pairUp_rel rest (hc.tail.tail) ab h

lemma pairUp_mem : ∀ l : List IPoint, ∀ ab ∈ pairUp l, ab.1 ∈ l ∧ ab.2 ∈ l
  | [], ab, h => by simp [pairUp] at h
  | [a], ab, h => by simp [pairUp] at h
  | a :: b :: rest, ab, h => by
    have hrw : pairUp (a :: b :: rest) = (a, b) :: pairUp rest := rfl
    rw [hrw] at h
    rcases List.mem_cons.1 h with h | h
    · subst h
      exact ⟨List.mem_cons_self _ _, List.mem_cons_of_mem _ (List.mem_cons_self _ _)⟩
    · have := pairUp_mem rest ab h
      exact ⟨List.mem_cons_of_mem _ (List.mem_cons_of_mem _ this.1),
        List.mem_cons_of_mem _ (List.mem_cons_of_mem _ this.2)⟩

lemma pairUp_eq_index : ∀ l : List IPoint,
    pairUp l = (List.range (l.length / 2)).map
      (fun m => (l.getD (2 * m) ipZero, l.getD (2 * m + 1) ipZero))
  | [] => by simp [pairUp]
  | [a] => by simp [pairUp]
  | a :: b :: rest => by
    have hrw : pairUp (a :: b :: rest) = (a, b) :: pairUp rest := rfl
    have hlen : (a :: b :: rest).length / 2 = rest.length / 2 + 1 := by
      simp only [List.length_cons]
      omega
    rw [hrw, pairUp_eq_index rest, hlen, List.range_succ_eq_map, List.map_cons, List.map_map]
    congr 1

lemma emitPairs_mem {poly : List Pt} {n : ℕ} {l : List IPoint} {seg : Pt × Pt}
    (h : seg ∈ emitPairs poly n l) :
    ∃ ab ∈ pairUp l, seg = ((ab.1.x, ab.1.y), (ab.2.x, ab.2.y)) := by
  unfold emitPairs at h
  rw [List.mem_filterMap] at h
  obtain ⟨ab, hm, hab⟩ := h
  by_cases hp : point_in_polygon ((1 / 2) * (ab.1.x + ab.2.x)) ((1 / 2) * (ab.1.y + ab.2.y)) poly n
  · rw [if_pos hp, Option.some.injEq] at hab
    exact ⟨ab, hm, hab.symm⟩
  · rw [if_neg hp] at hab
    exact absurd hab (by simp)

lemma emitPairs_eq_specEmit (poly : List Pt) (n : ℕ) (l : List IPoint) :
    emitPairs poly n l = specEmit poly n l := by
  unfold emitPairs specEmit
  rw [pairUp_eq_index, List.filterMap_map]
  rfl

/-! ## Helper lemmas for rotation invariance of the ray-cast test -/

lemma foldl_toggle (tst : ℕ → Bool) : ∀ (l : List ℕ) (b : Bool),
    l.foldl (fun inside i => if tst i then !inside else inside) b =
      xor b (decide (l.countP tst % 2 = 1))
  | [], b => by simp
  | a :: l, b => by
    rw [List.foldl_cons, foldl_toggle tst l]
    rcases Nat.mod_two_eq_zero_or_one (l.countP tst) with h | h <;>
      by_cases ha : tst a <;>
        simp [List.countP_cons, ha, h, Nat.add_mod] <;> cases b <;> simp

lemma pip_parity (x y : ℚ) (poly : List Pt) (n : ℕ) (h3 : ¬ n < 3) :
    point_in_polygon x y poly n =
      decide ((List.range n).countP
        (fun i => edgeCrossTest x y (poly.getD i ptZero) (poly.getD ((i + n - 1) % n) ptZero))
          % 2 = 1) := by
  unfold point_in_polygon
  rw [if_neg h3, foldl_toggle]
  simp

lemma rangeMap_eq_zip (p : List Pt) (n : ℕ) (hn : p.length = n) (hpos : 0 < n) :
    (List.range n).map (fun i => (p.getD i ptZero, p.getD ((i + n - 1) % n) ptZero)) =
      p.zip (p.rotate (n - 1)) := by
  apply List.ext_getElem
  · simp [hn]
  · intro i h1 h2
    have hi : i < n := by simpa using h1
    have hilen : i < p.length := by omega
    have hmod : (i + n - 1) % n < n := Nat.mod_lt _ hpos
    have hmodlen : (i + n - 1) % n < p.length := by omega
    have hrlen : i < (p.rotate (n - 1)).length := by
      rw [List.length_rotate]; omega
    rw [List.getElem_map, List.getElem_range, List.getElem_zip, List.getElem_rotate]
    rw [List.getD_eq_getElem p ptZero hilen, List.getD_eq_getElem p ptZero hmodlen]
    have harith : i + n - 1 = i + (n - 1) := by omega
    congr 2
    rw [hn, harith]

lemma zip_rotate {α β : Type} (a : List α) (b : List β) (k : ℕ) (h : a.length = b.length) :
    (a.rotate k).zip (b.rotate k) = (a.zip b).rotate k := by
  apply List.ext_getElem
  · simp [h]
  · intro i h1 h2
    have hlen : i < a.length := by
      simp [List.length_zip, List.length_rotate, h] at h1
      omega
    have h1a : i < (a.rotate k).length := by rw [List.length_rotate]; omega
    have h1b : i < (b.rotate k).length := by rw [List.length_rotate]; omega
    have hzlen : i < (a.zip b).length := by simp [List.length_zip, h]; omega
    rw [List.getElem_zip, List.getElem_rotate, List.getElem_rotate, List.getElem_rotate,
      List.getElem_zip]
    have hz : (a.zip b).length = a.length := by simp [List.length_zip, h]
    simp only [hz, ← h]

/-! ## Claim theorems -/

/-- Claim C3: for every pair of segments and every epsilon, the intersection
primitive returns no intersection when `|denom| < eps`; otherwise it accepts
exactly when the Cramer parameters `t` and `u` both lie in `[-eps, 1+eps]`,
and an accepted result carries `t` and the point `p1 + t·(p2-p1)` computed
from the first segment. -/
theorem intersection_primitive_spec (p1 p2 p3 p4 : Pt) (eps : ℚ) :
    (|lsiDenom p1 p2 p3 p4| < eps →
      compute_line_segment_intersection p1 p2 p3 p4 eps = none) ∧
    (¬ |lsiDenom p1 p2 p3 p4| < eps →
      ((compute_line_segment_intersection p1 p2 p3 p4 eps = none ↔
        ¬ (-eps ≤ lsiT p1 p2 p3 p4 ∧ lsiT p1 p2 p3 p4 ≤ 1 + eps ∧
           -eps ≤ lsiU p1 p2 p3 p4 ∧ lsiU p1 p2 p3 p4 ≤ 1 + eps)) ∧
       ∀ r, compute_line_segment_intersection p1 p2 p3 p4 eps = some r →
         r.t = lsiT p1 p2 p3 p4 ∧ r.x = p1.1 + r.t * (p2.1 - p1.1) ∧
         r.y = p1.2 + r.t * (p2.2 - p1.2))) := by
  constructor
  · intro h
    simp [compute_line_segment_intersection, h]
  · intro h
    constructor
    · by_cases h2 : lsiT p1 p2 p3 p4 < -eps ∨ 1 + eps < lsiT p1 p2 p3 p4 ∨
          lsiU p1 p2 p3 p4 < -eps ∨ 1 + eps < lsiU p1 p2 p3 p4
      · simp only [compute_line_segment_intersection, if_neg h, if_pos h2]
        constructor
        · intro _ hc
          obtain ⟨a, b, c, d⟩ := hc
          rcases h2 with h2 | h2 | h2 | h2 <;> linarith
        · intro _
          trivial
      · simp only [compute_line_segment_intersection, if_neg h, if_neg h2]
        constructor
        · intro hh
          exact absurd hh (by simp)
        · intro hnot
          exfalso
          apply hnot
          push_neg at h2
          exact ⟨not_lt.1 (by simpa using h2.1), not_lt.1 (by simpa using h2.2.1),
            not_lt.1 (by simpa using h2.2.2.1), not_lt.1 (by simpa using h2.2.2.2)⟩
    · intro r hr
      simp only [compute_line_segment_intersection, if_neg h] at hr
      by_cases h2 : lsiT p1 p2 p3 p4 < -eps ∨ 1 + eps < lsiT p1 p2 p3 p4 ∨
          lsiU p1 p2 p3 p4 < -eps ∨ 1 + eps < lsiU p1 p2 p3 p4
      · rw [if_pos h2] at hr
        cases hr
      · rw [if_neg h2, Option.some.injEq] at hr
        subst hr
        exact ⟨rfl, rfl, rfl⟩

/-- Witness for C3: a parallel pair is rejected by the denominator test, and
a transversal crossing of the unit square's right edge is accepted. -/
theorem intersection_primitive_spec_witness :
    (|lsiDenom (0, 0) (0, 1) (0, 2) (0, 3)| < defaultEps ∧
      compute_line_segment_intersection (0, 0) (0, 1) (0, 2) (0, 3) defaultEps = none) ∧
    (¬ |lsiDenom (-1, 1/2) (2, 1/2) (1, 0) (1, 1)| < defaultEps ∧
      ((compute_line_segment_intersection (-1, 1/2) (2, 1/2) (1, 0) (1, 1) defaultEps = none ↔
        ¬ (-defaultEps ≤ lsiT (-1, 1/2) (2, 1/2) (1, 0) (1, 1) ∧
           lsiT (-1, 1/2) (2, 1/2) (1, 0) (1, 1) ≤ 1 + defaultEps ∧
           -defaultEps ≤ lsiU (-1, 1/2) (2, 1/2) (1, 0) (1, 1) ∧
           lsiU (-1, 1/2) (2, 1/2) (1, 0) (1, 1) ≤ 1 + defaultEps)) ∧
       ∀ r, compute_line_segment_intersection (-1, 1/2) (2, 1/2) (1, 0) (1, 1) defaultEps =
           some r →
         r.t = lsiT (-1, 1/2) (2, 1/2) (1, 0) (1, 1) ∧
         r.x = -1 + r.t * (2 - -1) ∧ r.y = 1/2 + r.t * (1/2 - 1/2))) :=
  ⟨⟨by decide, (intersection_primitive_spec (0, 0) (0, 1) (0, 2) (0, 3) defaultEps).1
      (by decide)⟩,
   ⟨by decide, (intersection_primitive_spec (-1, 1/2) (2, 1/2) (1, 0) (1, 1) defaultEps).2
      (by decide)⟩⟩

/-- Claim C10: each edge contributes at most one intersection record, so the
number of collected records never exceeds the scratch capacity, which equals
the effective polygon length. -/
theorem scratch_capacity_bound (poly : List Pt) (s e : Pt) (eps : ℚ) :
    (∀ n : ℕ, (collectRecords poly n s e eps).length ≤ n) ∧
    (collectRecords poly (effective_polygon_length poly) s e eps).length ≤
      effective_polygon_length poly := by
  have hgen : ∀ n : ℕ, (collectRecords poly n s e eps).length ≤ n := by
    intro n
    unfold collectRecords
    exact le_trans (List.length_filterMap_le _ _) (by simp)
  exact ⟨hgen, hgen _⟩

/-- Claim C5: with well-formed buffers of matching lengths, a degenerate
polygon (effective vertex count below 3) or an empty line set makes
`clip_lines_to_polygon` return an empty list, not an error. -/
theorem clip_degenerate_empty (pb sb eb : PyBuffer) (eps : ℚ)
    (hp : ensure_double_2d pb namePolygon = .ok ())
    (hs : ensure_double_2d sb nameLineStarts = .ok ())
    (he : ensure_double_2d eb nameLineEnds = .ok ())
    (hrows : bufferRows sb = bufferRows eb)
    (hdeg : effective_polygon_length (bufferPoints pb) < 3 ∨ bufferRows sb = 0) :
    clip_lines_to_polygon pb sb eb eps = .ok [] := by
  unfold clip_lines_to_polygon
  rw [hp, hs, he]
  simp only [if_neg (by simp [hrows] : ¬ bufferRows sb ≠ bufferRows eb)]
  have hcond : effective_polygon_length (bufferPoints pb) < 3 ∨
      ((bufferPoints sb).zip (bufferPoints eb)).length = 0 := by
    cases hdeg with
    | inl h => exact Or.inl h
    | inr h =>
      refine Or.inr ?_
      simp [List.length_zip, bufferPoints, h]
  simp only [clipLinesCore, if_pos hcond]

/-- Witness for C5: a two-vertex polygon buffer with one query line. -/
theorem clip_degenerate_empty_witness :
    ensure_double_2d twoPointBuffer namePolygon = .ok () ∧
    ensure_double_2d onePointBuffer nameLineStarts = .ok () ∧
    ensure_double_2d onePointBuffer nameLineEnds = .ok () ∧
    bufferRows onePointBuffer = bufferRows onePointBuffer ∧
    (effective_polygon_length (bufferPoints twoPointBuffer) < 3 ∨
      bufferRows onePointBuffer = 0) ∧
    clip_lines_to_polygon twoPointBuffer onePointBuffer onePointBuffer defaultEps = .ok [] :=
  ⟨by decide, by decide, by decide, rfl, by decide,
    clip_degenerate_empty twoPointBuffer onePointBuffer onePointBuffer defaultEps
      (by decide) (by decide) (by decide) rfl (by decide)⟩

/-- Claim C8: the even-odd point-in-polygon test gives the same answer on any
cyclic rotation of the same vertex ring (effective length `n ≥ 3`). -/
theorem point_in_polygon_rotation_invariant (x y : ℚ) (p : List Pt) (n k : ℕ)
    (hn : p.length = n) (h3 : 3 ≤ n) :
    point_in_polygon x y (p.rotate k) n = point_in_polygon x y p n := by
  have hpos : 0 < n := by omega
  have h3' : ¬ n < 3 := by omega
  have hlen : (p.rotate k).length = n := by rw [List.length_rotate, hn]
  rw [pip_parity x y p n h3', pip_parity x y (p.rotate k) n h3']
  have key : ∀ q : List Pt, q.length = n →
      (List.range n).countP
        (fun i => edgeCrossTest x y (q.getD i ptZero) (q.getD ((i + n - 1) % n) ptZero)) =
      (q.zip (q.rotate (n - 1))).countP (fun vv => edgeCrossTest x y vv.1 vv.2) := by
    intro q hq
    rw [← rangeMap_eq_zip q n hq hpos, List.countP_map]
    rfl
  rw [key p hn, key (p.rotate k) hlen]
  have hrr : (p.rotate k).rotate (n - 1) = (p.rotate (n - 1)).rotate k := by
    rw [List.rotate_rotate, List.rotate_rotate, Nat.add_comm]
  rw [hrr, zip_rotate p (p.rotate (n - 1)) k (by rw [List.length_rotate])]
  rw [((p.zip (p.rotate (n - 1))).rotate_perm k).countP_eq]

/-- Witness for C8: rotating the unit square's vertex list by one leaves the
containment answer for `(1/2, 3/4)` unchanged. -/
theorem point_in_polygon_rotation_invariant_witness :
    unitSquare.length = 4 ∧ 3 ≤ 4 ∧
    point_in_polygon (1/2) (3/4) (unitSquare.rotate 1) 4 =
      point_in_polygon (1/2) (3/4) unitSquare 4 :=
  ⟨by decide, by decide,
    point_in_polygon_rotation_invariant (1/2) (3/4) unitSquare 4 1 (by decide) (by decide)⟩

/-- Claim C2: per query line, fewer than two records yield no output;
otherwise the records are sorted by `t` ascending (a sorted permutation of
the collected records), the near-duplicate collapse keeps a sublist whose
consecutive `t` gaps are at least `1e-9`, and the output pairs the surviving
records as `(0,1), (2,3), …` (odd leftover dropped), emitting a pair exactly
when its midpoint passes the even-odd test. -/
theorem clip_line_pipeline_spec (poly : List Pt) (n : ℕ) (s e : Pt) (eps : ℚ) :
    ((collectRecords poly n s e eps).length < 2 → clipLineCore poly n s e eps = []) ∧
    (sortRecords (collectRecords poly n s e eps)).Perm (collectRecords poly n s e eps) ∧
    (sortRecords (collectRecords poly n s e eps)).Pairwise recLE ∧
    (dedupRecords (sortRecords (collectRecords poly n s e eps))).Sublist
      (sortRecords (collectRecords poly n s e eps)) ∧
    List.Chain' (fun a b => closeEps ≤ b.t - a.t)
      (dedupRecords (sortRecords (collectRecords poly n s e eps))) ∧
    (2 ≤ (collectRecords poly n s e eps).length →
      clipLineCore poly n s e eps =
        specEmit poly n (dedupRecords (sortRecords (collectRecords poly n s e eps)))) := by
  refine ⟨?_, sortRecords_perm _, sortRecords_sorted _, dedupRecords_sublist _,
    dedupRecords_chain _ (sortRecords_sorted _), ?_⟩
  · intro h
    simp only [clipLineCore, if_pos h]
  · intro h
    simp only [clipLineCore, if_neg (not_lt.2 h)]
    exact emitPairs_eq_specEmit poly n _

/-- Witness for C2: a line missing the unit square collects no records and
yields nothing; the horizontal midline collects two records and the output
equals the index-paired emission. -/
theorem clip_line_pipeline_spec_witness :
    ((collectRecords unitSquare 4 (-1, 5) (2, 5) defaultEps).length < 2 ∧
      clipLineCore unitSquare 4 (-1, 5) (2, 5) defaultEps = []) ∧
    (2 ≤ (collectRecords unitSquare 4 (-1, 1/2) (2, 1/2) defaultEps).length ∧
      clipLineCore unitSquare 4 (-1, 1/2) (2, 1/2) defaultEps =
        specEmit unitSquare 4
          (dedupRecords (sortRecords (collectRecords unitSquare 4 (-1, 1/2) (2, 1/2)
            defaultEps)))) :=
  ⟨⟨by decide, (clip_line_pipeline_spec unitSquare 4 (-1, 5) (2, 5) defaultEps).1 (by decide)⟩,
   ⟨by decide,
    (clip_line_pipeline_spec unitSquare 4 (-1, 1/2) (2, 1/2) defaultEps).2.2.2.2.2
      (by decide)⟩⟩

/-- Claim C9: every emitted segment comes from two records at parameters
`t1 < t2` along its query line with `t2 - t1 ≥ 1e-9`, its endpoints being the
points of the query line at `t1` and `t2` in traversal order — for the
per-line pipeline, for `clip_lines_to_polygon`, and for the fill loop of
`generate_line_fill`. -/
theorem emitted_segments_ordered :
    (∀ (poly : List Pt) (n : ℕ) (s e : Pt) (eps : ℚ) (seg : Pt × Pt),
      seg ∈ clipLineCore poly n s e eps →
      ∃ t1 t2 : ℚ, closeEps ≤ t2 - t1 ∧ t1 < t2 ∧
        seg = (ptAlong s e t1, ptAlong s e t2)) ∧
    (∀ (poly : List Pt) (lines : List (Pt × Pt)) (eps : ℚ) (seg : Pt × Pt),
      seg ∈ clipLinesCore poly lines eps →
      ∃ se ∈ lines, ∃ t1 t2 : ℚ, closeEps ≤ t2 - t1 ∧ t1 < t2 ∧
        seg = (ptAlong se.1 se.2 t1, ptAlong se.1 se.2 t2)) ∧
    (∀ (poly : List Pt) (n : ℕ) (spacing dirx diry cx cy bboxDiag ov : ℚ) (seg : Pt × Pt),
      seg ∈ generateLineFillCore poly n spacing dirx diry cx cy bboxDiag ov →
      ∃ (k : ℤ) (t1 t2 : ℚ), closeEps ≤ t2 - t1 ∧ t1 < t2 ∧
        seg = (ptAlong (fillLineStart cx cy dirx diry bboxDiag ov spacing k)
                 (fillLineEnd cx cy dirx diry bboxDiag ov spacing k) t1,
               ptAlong (fillLineStart cx cy dirx diry bboxDiag ov spacing k)
                 (fillLineEnd cx cy dirx diry bboxDiag ov spacing k) t2)) := by
  have main : ∀ (poly : List Pt) (n : ℕ) (s e : Pt) (eps : ℚ) (seg : Pt × Pt),
      seg ∈ clipLineCore poly n s e eps →
      ∃ t1 t2 : ℚ, closeEps ≤ t2 - t1 ∧ t1 < t2 ∧
        seg = (ptAlong s e t1, ptAlong s e t2) := by
    intro poly n s e eps seg hseg
    simp only [clipLineCore] at hseg
    by_cases hlen : (collectRecords poly n s e eps).length < 2
    · rw [if_pos hlen] at hseg
      simp at hseg
    · rw [if_neg hlen] at hseg
      obtain ⟨ab, hmem, rfl⟩ := emitPairs_mem hseg
      have hgap : closeEps ≤ ab.2.t - ab.1.t :=
        pairUp_rel _ (dedupRecords_chain _ (sortRecords_sorted _)) ab hmem
      have hmm := pairUp_mem _ ab hmem
      have h1r : ab.1 ∈ collectRecords poly n s e eps :=
        (sortRecords_perm _).mem_iff.1 ((dedupRecords_sublist _).subset hmm.1)
      have h2r : ab.2 ∈ collectRecords poly n s e eps :=
        (sortRecords_perm _).mem_iff.1 ((dedupRecords_sublist _).subset hmm.2)
      have hc1 := collect_mem h1r
      have hc2 := collect_mem h2r
      refine ⟨ab.1.t, ab.2.t, hgap, ?_, ?_⟩
      · have hce : (0:ℚ) < closeEps := by norm_num [closeEps]
        linarith
      · unfold ptAlong
        rw [← hc1.1, ← hc1.2, ← hc2.1, ← hc2.2]
  refine ⟨main, ?_, ?_⟩
  · intro poly lines eps seg h
    simp only [clipLinesCore] at h
    by_cases hc : effective_polygon_length poly < 3 ∨ lines.length = 0
    · rw [if_pos hc] at h
      simp at h
    · rw [if_neg hc] at h
      rw [List.mem_flatMap] at h
      obtain ⟨se, hse, hmem⟩ := h
      obtain ⟨t1, t2, hg, hlt, heq⟩ := main _ _ _ _ _ _ hmem
      exact ⟨se, hse, t1, t2, hg, hlt, heq⟩
  · intro poly n spacing dirx diry cx cy bboxDiag ov seg h
    simp only [generateLineFillCore] at h
    rw [List.mem_flatMap] at h
    obtain ⟨k, hk, hmem⟩ := h
    obtain ⟨t1, t2, hg, hlt, heq⟩ := main _ _ _ _ _ _ hmem
    exact ⟨k, t1, t2, hg, hlt, heq⟩

set_option maxRecDepth 1000000 in
/-- Witness for C9: the unit square's clipped midline segment, via the
per-line pipeline, the clipper entry, and the fill loop. -/
theorem emitted_segments_ordered_witness :
    (((0 : ℚ), (1 : ℚ)/2), ((1 : ℚ), (1 : ℚ)/2)) ∈
        clipLineCore unitSquare 4 (-1, 1/2) (2, 1/2) defaultEps ∧
    (∃ t1 t2 : ℚ, closeEps ≤ t2 - t1 ∧ t1 < t2 ∧
      (((0 : ℚ), (1 : ℚ)/2), ((1 : ℚ), (1 : ℚ)/2)) =
        (ptAlong (-1, 1/2) (2, 1/2) t1, ptAlong (-1, 1/2) (2, 1/2) t2)) ∧
    (((0 : ℚ), (1 : ℚ)/2), ((1 : ℚ), (1 : ℚ)/2)) ∈
        clipLinesCore unitSquare [((-1, 1/2), (2, 1/2))] defaultEps ∧
    (∃ se ∈ ([((-1, 1/2), (2, 1/2))] : List (Pt × Pt)), ∃ t1 t2 : ℚ,
      closeEps ≤ t2 - t1 ∧ t1 < t2 ∧
      (((0 : ℚ), (1 : ℚ)/2), ((1 : ℚ), (1 : ℚ)/2)) =
        (ptAlong se.1 se.2 t1, ptAlong se.1 se.2 t2)) ∧
    (((0 : ℚ), (0 : ℚ)), ((1 : ℚ), (0 : ℚ))) ∈
        generateLineFillCore unitSquare 4 (1/4) 1 0 (1/2) (1/2) (3/2) 2 ∧
    (∃ (k : ℤ) (t1 t2 : ℚ), closeEps ≤ t2 - t1 ∧ t1 < t2 ∧
      (((0 : ℚ), (0 : ℚ)), ((1 : ℚ), (0 : ℚ))) =
        (ptAlong (fillLineStart (1/2) (1/2) 1 0 (3/2) 2 (1/4) k)
           (fillLineEnd (1/2) (1/2) 1 0 (3/2) 2 (1/4) k) t1,
         ptAlong (fillLineStart (1/2) (1/2) 1 0 (3/2) 2 (1/4) k)
           (fillLineEnd (1/2) (1/2) 1 0 (3/2) 2 (1/4) k) t2)) :=
  ⟨by decide,
   emitted_segments_ordered.1 unitSquare 4 (-1, 1/2) (2, 1/2) defaultEps _ (by decide),
   by decide,
   emitted_segments_ordered.2.1 unitSquare [((-1, 1/2), (2, 1/2))] defaultEps _ (by decide),
   by decide,
   emitted_segments_ordered.2.2 unitSquare 4 (1/4) 1 0 (1/2) (1/2) (3/2) 2 _ (by decide)⟩

/-- Claim C4: `circle_circle_intersections` returns an empty list when the
centers are too far apart, one circle strictly contains the other, the
circles are concentric (`d < tol`), or `h² < -tol`; otherwise it returns one
point when `h ≤ tol` and two otherwise, with `h = √(max(h², 0))`; and for
`0 < tol` two identical circles fall into the `d < tol` branch and yield an
empty list. -/
theorem circle_intersections_spec (cx1 cy1 r1 cx2 cy2 r2 tol : ℚ) :
    (cciD cx1 cy1 cx2 cy2 > r1 + r2 + tol ∨ cciD cx1 cy1 cx2 cy2 < |r1 - r2| - tol ∨
        cciD cx1 cy1 cx2 cy2 < tol →
      circle_circle_intersections cx1 cy1 r1 cx2 cy2 r2 tol = []) ∧
    (¬ (cciD cx1 cy1 cx2 cy2 > r1 + r2 + tol ∨ cciD cx1 cy1 cx2 cy2 < |r1 - r2| - tol ∨
        cciD cx1 cy1 cx2 cy2 < tol) →
      (cciHsq cx1 cy1 r1 cx2 cy2 r2 < -tol →
        circle_circle_intersections cx1 cy1 r1 cx2 cy2 r2 tol = []) ∧
      (¬ cciHsq cx1 cy1 r1 cx2 cy2 r2 < -tol →
        cciH cx1 cy1 r1 cx2 cy2 r2 = ratSqrt (max (cciHsq cx1 cy1 r1 cx2 cy2 r2) 0) ∧
        (cciH cx1 cy1 r1 cx2 cy2 r2 ≤ tol →
          (circle_circle_intersections cx1 cy1 r1 cx2 cy2 r2 tol).length = 1) ∧
        (tol < cciH cx1 cy1 r1 cx2 cy2 r2 →
          (circle_circle_intersections cx1 cy1 r1 cx2 cy2 r2 tol).length = 2))) ∧
    (0 < tol → cciD cx1 cy1 cx1 cy1 < tol ∧
      circle_circle_intersections cx1 cy1 r1 cx1 cy1 r1 tol = []) := by
  refine ⟨?_, ?_, ?_⟩
  · intro h
    simp only [circle_circle_intersections, if_pos h]
  · intro h
    refine ⟨?_, ?_⟩
    · intro h2
      simp only [circle_circle_intersections, if_neg h, if_pos h2]
    · intro h2
      refine ⟨?_, ?_, ?_⟩
      · unfold cciH
        by_cases h3 : 0 < cciHsq cx1 cy1 r1 cx2 cy2 r2
        · rw [if_pos h3, max_eq_left (le_of_lt h3)]
        · rw [if_neg h3, max_eq_right (not_lt.1 h3)]
          unfold ratSqrt
          rw [if_pos (le_refl (0 : ℚ))]
      · intro h4
        simp only [circle_circle_intersections, if_neg h, if_neg h2,
          if_neg (not_lt.2 h4)]
        rfl
      · intro h4
        simp only [circle_circle_intersections, if_neg h, if_neg h2, if_pos h4]
        rfl
  · intro htol
    have hd : cciD cx1 cy1 cx1 cy1 = 0 := by
      unfold cciD hypotQ
      simp [sub_self, ratSqrt]
    refine ⟨by rw [hd]; exact htol, ?_⟩
    simp only [circle_circle_intersections]
    rw [if_pos (Or.inr (Or.inr (by rw [hd]; exact htol)))]

set_option maxRecDepth 1000000 in
/-- Witness for C4: far-apart circles, secant circles with two points,
tangent circles with one point, and identical circles. -/
theorem circle_intersections_spec_witness :
    ((cciD 0 0 10 0 > 1 + 1 + 1/100 ∨ cciD 0 0 10 0 < |1 - 1| - 1/100 ∨
        cciD 0 0 10 0 < 1/100) ∧
      circle_circle_intersections 0 0 1 10 0 1 (1/100) = []) ∧
    (¬ (cciD 0 0 3 0 > 2 + 2 + 1/1000 ∨ cciD 0 0 3 0 < |2 - 2| - 1/1000 ∨
        cciD 0 0 3 0 < 1/1000) ∧
      ¬ cciHsq 0 0 2 3 0 2 < -(1/1000) ∧ 1/1000 < cciH 0 0 2 3 0 2 ∧
      (circle_circle_intersections 0 0 2 3 0 2 (1/1000)).length = 2) ∧
    (¬ (cciD 0 0 2 0 > 1 + 1 + 1/1000 ∨ cciD 0 0 2 0 < |1 - 1| - 1/1000 ∨
        cciD 0 0 2 0 < 1/1000) ∧
      ¬ cciHsq 0 0 1 2 0 1 < -(1/1000) ∧ cciH 0 0 1 2 0 1 ≤ 1/1000 ∧
      (circle_circle_intersections 0 0 1 2 0 1 (1/1000)).length = 1) ∧
    ((0 : ℚ) < 1/100 ∧ cciD 5 7 5 7 < 1/100 ∧
      circle_circle_intersections 5 7 3 5 7 3 (1/100) = []) :=
  ⟨⟨by decide, (circle_intersections_spec 0 0 1 10 0 1 (1/100)).1 (by decide)⟩,
   ⟨by decide, by decide, by decide,
    (((circle_intersections_spec 0 0 2 3 0 2 (1/1000)).2.1 (by decide)).2
      (by decide)).2.2 (by decide)⟩,
   ⟨by decide, by decide, by decide,
    (((circle_intersections_spec 0 0 1 2 0 1 (1/1000)).2.1 (by decide)).2
      (by decide)).2.1 (by decide)⟩,
   ⟨by decide, ((circle_intersections_spec 5 7 3 0 0 0 (1/100)).2.2 (by decide)).1,
    ((circle_intersections_spec 5 7 3 0 0 0 (1/100)).2.2 (by decide)).2⟩⟩

set_option maxRecDepth 1000000 in
/-- Counterexample for C1: with all defaults, the unit-square fill emits a
segment whose `y` is `0`, farther than any floating tolerance from every
claimed value in `{1/8, 3/8, 5/8, 7/8}` — the claimed midline offsets do not
match the code, which centers line `k = 0` exactly on the centroid. -/
theorem generate_line_fill_unit_square_claim_false :
    ¬ ∀ seg ∈ okList (generate_line_fill unitSquareBuffer (1/4) 1 0 PyPointArg.none
        Option.none 2),
      ∃ y0 ∈ ([1/8, 3/8, 5/8, 7/8] : List ℚ), |seg.1.2 - y0| ≤ 1/100 := by
  decide

set_option maxRecDepth 1000000 in
/-- Claim C1 (amended): on the unit square with `spacing = 1/4`, `angle = 0`
and defaults, the fill returns exactly four horizontal segments spanning
`x ∈ [0, 1]` at `y ∈ {0, 1/4, 1/2, 3/4}` (the candidate at `y = 1` is
generated but rejected by the midpoint test); the line count on each side of
the centroid is `⌊bbox_diag/spacing⌋ + 3 = 8`, offsets run from `-8` to `8`,
and every candidate line `k` is centered at `centroid + k·spacing·perp`. -/
theorem generate_line_fill_unit_square_spec :
    generate_line_fill unitSquareBuffer (1/4) 1 0 PyPointArg.none Option.none 2 =
      .ok [((0, 0), (1, 0)), ((0, 1/4), (1, 1/4)), ((0, 1/2), (1, 1/2)),
        ((0, 3/4), (1, 3/4))] ∧
    (⌊bboxDiagOf (bufferPoints unitSquareBuffer) 4 / ((1 : ℚ)/4)⌋ + 3 : ℤ) = 8 ∧
    fillOffsets 8 = [-8, -7, -6, -5, -4, -3, -2, -1, 0, 1, 2, 3, 4, 5, 6, 7, 8] ∧
    (∀ (cx cy dirx diry bbox ov spacing : ℚ) (k : ℤ),
      (1/2) * ((fillLineStart cx cy dirx diry bbox ov spacing k).1 +
        (fillLineEnd cx cy dirx diry bbox ov spacing k).1) =
          cx + (k : ℚ) * spacing * (-diry) ∧
      (1/2) * ((fillLineStart cx cy dirx diry bbox ov spacing k).2 +
        (fillLineEnd cx cy dirx diry bbox ov spacing k).2) =
          cy + (k : ℚ) * spacing * dirx) := by
  refine ⟨by decide, by decide, by decide, ?_⟩
  intro cx cy dirx diry bbox ov spacing k
  constructor <;> (unfold fillLineStart fillLineEnd; ring)

set_option maxRecDepth 1000000 in
/-- Counterexample for C7: clipping a long shallow line across a sliver
triangle emits the segment from `(0, y)` to `(1/2, y)` with `y = 5e-13`, but
re-clipping that emitted segment against the same polygon with the same
epsilon returns the empty list: the bottom edge's denominator shrinks with
the segment length and falls below `eps`, leaving a single record. -/
theorem clip_reclip_counterexample :
    clipLinesCore sliverTriangle [((-1000, sliverY), (1000, sliverY))] defaultEps =
      [((0, sliverY), (1/2, sliverY))] ∧
    clipLinesCore sliverTriangle [((0, sliverY), (1/2, sliverY))] defaultEps = [] := by
  constructor <;> decide

set_option maxRecDepth 1000000 in
/-- Claim C7 (amended): re-clipping an emitted interior segment returns that
segment unchanged in the regular case — here the unit square's clipped
horizontal midline — though not for every polygon and emitted segment. -/
theorem clip_idempotent_unit_square :
    clipLinesCore unitSquare [((-1, 1/2), (2, 1/2))] defaultEps =
      [((0, 1/2), (1, 1/2))] ∧
    clipLinesCore unitSquare [((0, 1/2), (1, 1/2))] defaultEps =
      [((0, 1/2), (1, 1/2))] := by
  constructor <;> decide

lemma ensure_error_prefix {b : PyBuffer} {name : String} {er : GeomError}
    (h : ensure_double_2d b name = .error er) : ∃ rest, er.msg = name ++ rest := by
  unfold ensure_double_2d at h
  by_cases h1 : b.ndim ≠ 2
  · rw [if_pos h1] at h
    injection h with h
    subst h
    exact ⟨sfx2D, rfl⟩
  · rw [if_neg h1] at h
    by_cases h2 : b.shape.getD 1 0 ≠ 2
    · rw [if_pos h2] at h
      injection h with h
      subst h
      exact ⟨sfxShape, rfl⟩
    · rw [if_neg h2] at h
      by_cases h3 : b.fmt ≠ fmtDouble
      · rw [if_pos h3] at h
        injection h with h
        subst h
        exact ⟨sfxDtype, rfl⟩
      · rw [if_neg h3] at h
        cases h

/-- Claim C6 (amended): every input contract violation — wrong buffer
dimensionality/shape/dtype, mismatched lengths, non-positive spacing, a
non-sequence centroid, a centroid of the wrong length — produces a
type/value error whose message begins with the offending parameter's name,
and no partial result; except that the centroid checks of
`generate_line_fill` are only reached when the polygon is non-degenerate
(effective length at least 3) — a degenerate polygon returns an empty list
before the centroid argument is inspected. -/
theorem input_validation_spec :
    (∀ (pb sb eb : PyBuffer) (eps : ℚ) (er : GeomError),
      ensure_double_2d pb namePolygon = .error er →
      clip_lines_to_polygon pb sb eb eps = .error er ∧
        ∃ rest, er.msg = namePolygon ++ rest) ∧
    (∀ (pb sb eb : PyBuffer) (eps : ℚ) (er : GeomError),
      ensure_double_2d pb namePolygon = .ok () →
      ensure_double_2d sb nameLineStarts = .error er →
      clip_lines_to_polygon pb sb eb eps = .error er ∧
        ∃ rest, er.msg = nameLineStarts ++ rest) ∧
    (∀ (pb sb eb : PyBuffer) (eps : ℚ) (er : GeomError),
      ensure_double_2d pb namePolygon = .ok () →
      ensure_double_2d sb nameLineStarts = .ok () →
      ensure_double_2d eb nameLineEnds = .error er →
      clip_lines_to_polygon pb sb eb eps = .error er ∧
        ∃ rest, er.msg = nameLineEnds ++ rest) ∧
    (∀ (pb sb eb : PyBuffer) (eps : ℚ),
      ensure_double_2d pb namePolygon = .ok () →
      ensure_double_2d sb nameLineStarts = .ok () →
      ensure_double_2d eb nameLineEnds = .ok () →
      bufferRows sb ≠ bufferRows eb →
      clip_lines_to_polygon pb sb eb eps = .error (.valueError msgSameLen)) ∧
    (∀ (pb : PyBuffer) (spacing dirx diry : ℚ) (ca : PyPointArg) (ba : Option ℚ) (ov : ℚ),
      spacing ≤ 0 →
      generate_line_fill pb spacing dirx diry ca ba ov =
        .error (.valueError msgSpacingPos)) ∧
    (∀ (pb : PyBuffer) (spacing dirx diry : ℚ) (ca : PyPointArg) (ba : Option ℚ) (ov : ℚ)
        (er : GeomError),
      0 < spacing →
      ensure_double_2d pb namePolygon = .error er →
      generate_line_fill pb spacing dirx diry ca ba ov = .error er ∧
        ∃ rest, er.msg = namePolygon ++ rest) ∧
    (∀ (pb : PyBuffer) (spacing dirx diry : ℚ) (ba : Option ℚ) (ov : ℚ),
      0 < spacing →
      ensure_double_2d pb namePolygon = .ok () →
      3 ≤ effective_polygon_length (bufferPoints pb) →
      generate_line_fill pb spacing dirx diry PyPointArg.notSeq ba ov =
        .error (.typeError (nameCentroid ++ sfxSeq))) ∧
    (∀ (pb : PyBuffer) (spacing dirx diry : ℚ) (xs : List ℚ) (ba : Option ℚ) (ov : ℚ),
      0 < spacing →
      ensure_double_2d pb namePolygon = .ok () →
      3 ≤ effective_polygon_length (bufferPoints pb) →
      xs.length ≠ 2 →
      generate_line_fill pb spacing dirx diry (PyPointArg.seq xs) ba ov =
        .error (.valueError (nameCentroid ++ sfxLen2))) := by
  refine ⟨?_, ?_, ?_, ?_, ?_, ?_, ?_, ?_⟩
  · intro pb sb eb eps er h
    refine ⟨?_, ensure_error_prefix h⟩
    unfold clip_lines_to_polygon
    rw [h]
  · intro pb sb eb eps er hp h
    refine ⟨?_, ensure_error_prefix h⟩
    unfold clip_lines_to_polygon
    rw [hp, h]
  · intro pb sb eb eps er hp hs h
    refine ⟨?_, ensure_error_prefix h⟩
    unfold clip_lines_to_polygon
    rw [hp, hs, h]
  · intro pb sb eb eps hp hs he hne
    unfold clip_lines_to_polygon
    rw [hp, hs, he, if_pos hne]
  · intro pb spacing dirx diry ca ba ov hsp
    unfold generate_line_fill
    rw [if_pos hsp]
  · intro pb spacing dirx diry ca ba ov er hsp h
    refine ⟨?_, ensure_error_prefix h⟩
    unfold generate_line_fill
    rw [if_neg (not_le.2 hsp), h]
  · intro pb spacing dirx diry ba ov hsp hok h3
    simp only [generate_line_fill, if_neg (not_le.2 hsp), hok]
    rw [if_neg (not_lt.2 h3)]
    rfl
  · intro pb spacing dirx diry xs ba ov hsp hok h3 hxs
    simp only [generate_line_fill, if_neg (not_le.2 hsp), hok]
    rw [if_neg (not_lt.2 h3)]
    simp only [parse_point_like, if_pos hxs]

/-- Counterexample to C6 as stated: a call of `generate_line_fill` with a
non-sequence centroid — an input contract violation — on a valid but
degenerate one-vertex polygon buffer returns an empty list instead of
raising an error: the degenerate-polygon early return precedes centroid
validation. -/
theorem input_validation_claim_false :
    generate_line_fill onePointBuffer 1 1 0 PyPointArg.notSeq Option.none 2 = .ok [] ∧
    ¬ ∃ er : GeomError,
      generate_line_fill onePointBuffer 1 1 0 PyPointArg.notSeq Option.none 2 =
        .error er := by
  have h : generate_line_fill onePointBuffer 1 1 0 PyPointArg.notSeq Option.none 2 =
      .ok [] := by decide
  refine ⟨h, ?_⟩
  rintro ⟨er, her⟩
  rw [h] at her
  cases her

/-- Witness for C6: each violation class at a concrete input. -/
theorem input_validation_spec_witness :
    (ensure_double_2d badNdimBuffer namePolygon =
        .error (.valueError (namePolygon ++ sfx2D)) ∧
      clip_lines_to_polygon badNdimBuffer onePointBuffer onePointBuffer defaultEps =
        .error (.valueError (namePolygon ++ sfx2D)) ∧
      ∃ rest, (GeomError.valueError (namePolygon ++ sfx2D)).msg = namePolygon ++ rest) ∧
    (clip_lines_to_polygon onePointBuffer badNdimBuffer onePointBuffer defaultEps =
        .error (.valueError (nameLineStarts ++ sfx2D)) ∧
      ∃ rest, (GeomError.valueError (nameLineStarts ++ sfx2D)).msg =
        nameLineStarts ++ rest) ∧
    (clip_lines_to_polygon onePointBuffer onePointBuffer badNdimBuffer defaultEps =
        .error (.valueError (nameLineEnds ++ sfx2D)) ∧
      ∃ rest, (GeomError.valueError (nameLineEnds ++ sfx2D)).msg = nameLineEnds ++ rest) ∧
    (bufferRows onePointBuffer ≠ bufferRows twoPointBuffer ∧
      clip_lines_to_polygon unitSquareBuffer onePointBuffer twoPointBuffer defaultEps =
        .error (.valueError msgSameLen)) ∧
    ((0 : ℚ) ≤ 0 ∧
      generate_line_fill unitSquareBuffer 0 1 0 PyPointArg.none Option.none 2 =
        .error (.valueError msgSpacingPos)) ∧
    ((0 : ℚ) < 1 ∧
      generate_line_fill badNdimBuffer 1 1 0 PyPointArg.none Option.none 2 =
        .error (.valueError (namePolygon ++ sfx2D))) ∧
    (3 ≤ effective_polygon_length (bufferPoints unitSquareBuffer) ∧
      generate_line_fill unitSquareBuffer 1 1 0 PyPointArg.notSeq Option.none 2 =
        .error (.typeError (nameCentroid ++ sfxSeq))) ∧
    (([(1 : ℚ), 2, 3] : List ℚ).length ≠ 2 ∧
      generate_line_fill unitSquareBuffer 1 1 0 (PyPointArg.seq [1, 2, 3]) Option.none 2 =
        .error (.valueError (nameCentroid ++ sfxLen2))) :=
  ⟨⟨by decide,
    (input_validation_spec.1 badNdimBuffer onePointBuffer onePointBuffer defaultEps _
      (by decide)).1,
    (input_validation_spec.1 badNdimBuffer onePointBuffer onePointBuffer defaultEps _
      (by decide)).2⟩,
   ⟨(input_validation_spec.2.1 onePointBuffer badNdimBuffer onePointBuffer defaultEps _
      (by decide) (by decide)).1,
    (input_validation_spec.2.1 onePointBuffer badNdimBuffer onePointBuffer defaultEps _
      (by decide) (by decide)).2⟩,
   ⟨(input_validation_spec.2.2.1 onePointBuffer onePointBuffer badNdimBuffer defaultEps _
      (by decide) (by decide) (by decide)).1,
    (input_validation_spec.2.2.1 onePointBuffer onePointBuffer badNdimBuffer defaultEps _
      (by decide) (by decide) (by decide)).2⟩,
   ⟨by decide,
    input_validation_spec.2.2.2.1 unitSquareBuffer onePointBuffer twoPointBuffer defaultEps
      (by decide) (by decide) (by decide) (by decide)⟩,
   ⟨le_refl 0,
    input_validation_spec.2.2.2.2.1 unitSquareBuffer 0 1 0 PyPointArg.none Option.none 2
      (le_refl 0)⟩,
   ⟨by decide,
    (input_validation_spec.2.2.2.2.2.1 badNdimBuffer 1 1 0 PyPointArg.none Option.none 2 _
      (by decide) (by decide)).1⟩,
   ⟨by decide,
    input_validation_spec.2.2.2.2.2.2.1 unitSquareBuffer 1 1 0 Option.none 2
      (by decide) (by decide) (by decide)⟩,
   ⟨by decide,
    input_validation_spec.2.2.2.2.2.2.2 unitSquareBuffer 1 1 0 [1, 2, 3] Option.none 2
      (by decide) (by decide) (by decide) (by decide)⟩⟩
